import Mathlib

/-!
Verification of the request-approval and stock-mutation workflow of the
warehouse inventory server (Express handlers over a PostgreSQL store).

The handlers are shallowly embedded: the database is a record of lists of
rows, each HTTP handler is a Lean function on that record, and a SQL
transaction is modelled by a runner that applies the handler's primitive
writes one by one with snapshot rollback on failure.  Quantities are `Int`
(JavaScript numbers used integrally), statuses are the literal strings the
server stores.
-/

namespace Gudang

/-- Row of the `items` table. -/
structure Item where
  id : Nat
  name : String
  description : String
  category : String
  quantity : Int
  minQuantity : Int
  unit : String
  price : Int
  status : String
  isActive : Int
deriving Repr, DecidableEq

/-- Row of the `requests` table. -/
structure Request where
  id : String
  projectName : String
  requesterId : String
  reason : String
  priority : String
  dueDate : Option String
  status : String
  updatedAt : Nat
deriving Repr, DecidableEq

/-- Row of the `request_items` table (one line item of a request). -/
structure RequestItem where
  requestId : String
  itemId : Nat
  quantity : Int
deriving Repr, DecidableEq

/-- Row of the `stock_history` table. -/
structure HistoryEntry where
  item_id : Nat
  change_type : String
  quantity_before : Int
  quantity_change : Int
  quantity_after : Int
  notes : String
  created_by : Option String
deriving Repr, DecidableEq

/-- The persistent store.  `nextId` models the SERIAL id sequence of the
`items` table. -/
structure DB where
  items : List Item
  requests : List Request
  requestItems : List RequestItem
  history : List HistoryEntry
  nextId : Nat
deriving Repr, DecidableEq

/-- Stock status as recomputed inside the approval handler
(`newQty === 0 ? "out-of-stock" : newQty <= (minQuantity || 0) ? "low-stock" : "in-stock"`). -/
def deriveStatus (q minQ : Int) : String :=
  if q = 0 then ("out-of-stock") else if q ≤ minQ then ("low-stock") else ("in-stock")

/-- Status string computed by the GET item read projections
(`quantity > 0 ? (quantity <= (minQuantity || 0) ? "low-stock" : "in-stock") : "out-of-stock"`);
the stored status column is ignored by the reads. -/
def formatStatus (q minQ : Int) : String :=
  if 0 < q then (if q ≤ minQ then ("low-stock") else ("in-stock")) else ("out-of-stock")

/-- One row of the approval handler's single join query over
`request_items ri JOIN items i ON ri.item_id = i.id WHERE ri.request_id = rid`:
the requested quantity together with the item's quantity and minQuantity as
they stand at the start of the transaction. -/
structure JoinRow where
  itemId : Nat
  requested_qty : Int
  current_qty : Int
  minQuantity : Int
deriving Repr, DecidableEq

/-- The join query of the approval handler, evaluated on the snapshot taken
before any line is processed (the handler issues ONE query and then loops). -/
def approvalLines (db : DB) (rid : String) : List JoinRow :=
  (db.requestItems.filter (fun ri => ri.requestId == rid)).filterMap (fun ri =>
    (db.items.find? (fun i => i.id == ri.itemId)).map (fun i =>
      { itemId := ri.itemId, requested_qty := ri.quantity,
        current_qty := i.quantity, minQuantity := i.minQuantity }))

/-- Note string the approval handler stores on each history entry. -/
def requestNote (rid : String) : String := ("Approved request ") ++ rid

/-- History entry the approval handler inserts for one join row. -/
def rowEntry (rid : String) (approvedBy : Option String) (row : JoinRow) : HistoryEntry :=
  { item_id := row.itemId, change_type := ("request"),
    quantity_before := row.current_qty, quantity_change := -row.requested_qty,
    quantity_after := max 0 (row.current_qty - row.requested_qty),
    notes := requestNote rid, created_by := approvedBy }

/-- Body of the approval loop for one join row: `UPDATE items SET quantity,
status WHERE id` followed by `INSERT INTO stock_history`. -/
def applyApprovalLine (rid : String) (approvedBy : Option String) (db : DB) (row : JoinRow) : DB :=
  let newQty := max 0 (row.current_qty - row.requested_qty)
  { db with
    items := db.items.map (fun i =>
      if i.id == row.itemId then
        { i with quantity := newQty, status := deriveStatus newQty row.minQuantity }
      else i),
    history := db.history ++ [rowEntry rid approvedBy row] }

/-- Handler of `PATCH /api/requests/:id/status` (success path of the enclosing
transaction): look up the request, run the stock loop when approving a not yet
approved request, then unconditionally update the request's status and
`updatedAt`. -/
def patchRequestStatus (db : DB) (rid status : String)
    (approvedBy : Option String) (now : Nat) : Except String DB :=
  match db.requests.find? (fun r => r.id == rid) with
  | none => .error ("Request not found")
  | some req =>
    let db1 :=
      if status == ("approved") && !(req.status == ("approved")) then
        (approvalLines db rid).foldl (applyApprovalLine rid approvedBy) db
      else db
    .ok { db1 with requests := db1.requests.map (fun r =>
      if r.id == rid then { r with status := status, updatedAt := now } else r) }

/-- JavaScript string fallback `a || b`: an absent or empty string falls
through to the default. -/
def jsStrOr (o : Option String) (d : String) : String :=
  match o with
  | some s => if s == ("") then d else s
  | none => d

/-- Body of `PUT /api/items/:id` (every field optional). -/
structure PutItemBody where
  quantity : Option Int := none
  notes : Option String := none
  historyNotes : Option String := none
  userId : Option String := none
  name : Option String := none
  description : Option String := none
  category : Option String := none
  minQuantity : Option Int := none
  unit : Option String := none
  price : Option Int := none
deriving Repr, DecidableEq

/-- True when the body carries at least one column of the `updates` map built
by the handler (notes and userId are not columns). -/
def PutItemBody.hasUpdates (b : PutItemBody) : Bool :=
  b.name.isSome || b.description.isSome || b.category.isSome || b.quantity.isSome ||
  b.minQuantity.isSome || b.unit.isSome || b.price.isSome

/-- The `UPDATE items SET ...` of the PUT handler: provided columns are set,
everything else — in particular the stored `status` column and `isActive` —
is left untouched. -/
def applyItemUpdates (b : PutItemBody) (i : Item) : Item :=
  { i with
    name := b.name.getD i.name,
    description := b.description.getD i.description,
    category := b.category.getD i.category,
    quantity := b.quantity.getD i.quantity,
    minQuantity := b.minQuantity.getD i.minQuantity,
    unit := b.unit.getD i.unit,
    price := b.price.getD i.price }

/-- History entry the PUT handler inserts when the body's quantity differs
from the stored one. -/
def putItemEntry (id : Nat) (b : PutItemBody) (oldQty q : Int) : HistoryEntry :=
  { item_id := id,
    change_type := if oldQty < q then ("restock") else ("adjustment"),
    quantity_before := oldQty, quantity_change := q - oldQty, quantity_after := q,
    notes := jsStrOr b.historyNotes (jsStrOr b.notes ("Manual update")),
    created_by := b.userId }

/-- Handler of `PUT /api/items/:id`, success path: read the old quantity,
apply the field updates, and append a history entry when the quantity
changed. -/
def putItem (db : DB) (id : Nat) (b : PutItemBody) : Except String DB :=
  match db.items.find? (fun i => i.id == id) with
  | none => .error ("Item not found")
  | some old =>
    if !b.hasUpdates then .ok db
    else
      let db1 := { db with items := db.items.map (fun i =>
        if i.id == id then applyItemUpdates b i else i) }
      match b.quantity with
      | some q =>
        if q == old.quantity then .ok db1
        else .ok { db1 with history := db1.history ++ [putItemEntry id b old.quantity q] }
      | none => .ok db1

/-- Execution of `PUT /api/items/:id` with a failure oracle at `db.query`
granularity.  The handler wraps nothing in a transaction: the SELECT (step 0),
the UPDATE (step 1) and the history INSERT (step 2) are separate
auto-committed statements, so a failure of step 2 leaves the UPDATE of step 1
persisted. -/
def putItemWithFailures (db : DB) (id : Nat) (b : PutItemBody) (fail : Nat → Bool) : DB × Bool :=
  if fail 0 then (db, false)
  else
    match db.items.find? (fun i => i.id == id) with
    | none => (db, false)
    | some old =>
      if !b.hasUpdates then (db, true)
      else if fail 1 then (db, false)
      else
        let db1 := { db with items := db.items.map (fun i =>
          if i.id == id then applyItemUpdates b i else i) }
        match b.quantity with
        | some q =>
          if q == old.quantity then (db1, true)
          else if fail 2 then (db1, false)
          else ({ db1 with history := db1.history ++ [putItemEntry id b old.quantity q] }, true)
        | none => (db1, true)

/-- Body of `POST /api/items`. -/
structure PostItemBody where
  name : String
  description : String
  category : String
  quantity : Option Int := none
  minQuantity : Option Int := none
  price : Option Int := none
  unit : Option String := none
deriving Repr, DecidableEq

/-- Handler of `POST /api/items`: inserts a new row with the literal status
string `in-stock`, whatever the quantity. -/
def postItem (db : DB) (b : PostItemBody) : DB × Item :=
  let it : Item :=
    { id := db.nextId, name := b.name, description := b.description,
      category := b.category, quantity := b.quantity.getD 0,
      minQuantity := b.minQuantity.getD 0, unit := b.unit.getD ("pcs"),
      price := b.price.getD 0, status := ("in-stock"), isActive := 1 }
  ({ db with items := db.items ++ [it], nextId := db.nextId + 1 }, it)

/-- Handler of `DELETE /api/items/:id`: a single unconditional
`UPDATE items SET isActive = 0 WHERE id`, always answered with success. -/
def deleteItem (db : DB) (id : Nat) : DB × Bool :=
  ({ db with items := db.items.map (fun i =>
    if i.id == id then { i with isActive := 0 } else i) }, true)

/-- One line of the body of `POST /api/requests`. -/
structure RequestLineBody where
  item_id : Nat
  quantity : Int
deriving Repr, DecidableEq

/-- Body of `POST /api/requests`. -/
structure PostRequestBody where
  project_name : String
  requester_id : String
  reason : Option String := none
  priority : Option String := none
  due_date : Option String := none
  items : List RequestLineBody
deriving Repr, DecidableEq

/-- Handler of `POST /api/requests` (success path of its transaction): insert
the request with status `pending` plus one row per line item.  `rid` stands
for the generated uuid. -/
def postRequest (db : DB) (rid : String) (b : PostRequestBody) (now : Nat) : Except String DB :=
  if b.project_name == ("") || b.items.isEmpty then .error ("Missing required fields")
  else
    let req : Request :=
      { id := rid, projectName := b.project_name, requesterId := b.requester_id,
        reason := jsStrOr b.reason (""), priority := jsStrOr b.priority ("medium"),
        dueDate := b.due_date, status := ("pending"), updatedAt := now }
    let lines := b.items.map (fun l =>
      ({ requestId := rid, itemId := l.item_id, quantity := l.quantity } : RequestItem))
    .ok { db with requests := db.requests ++ [req],
                  requestItems := db.requestItems ++ lines }

/-- Handler of `DELETE /api/requests/:id`: hard delete; line items go with it
through the schema's cascade (spec section 6). -/
def deleteRequest (db : DB) (rid : String) : DB × Bool :=
  if db.requests.any (fun r => r.id == rid) then
    ({ db with requests := db.requests.filter (fun r => !(r.id == rid)),
               requestItems := db.requestItems.filter (fun ri => !(ri.requestId == rid)) }, true)
  else (db, false)

/-- Item as served by `GET /api/items`. -/
structure ItemView where
  id : Nat
  name : String
  description : String
  category : String
  quantity : Int
  minQuantity : Int
  unit : String
  status : String
  price : Int
deriving Repr, DecidableEq

/-- Read projection of one item row: the served status is recomputed from
quantity and minQuantity, never taken from the stored column. -/
def formatItem (i : Item) : ItemView :=
  { id := i.id, name := i.name, description := i.description,
    category := i.category, quantity := i.quantity, minQuantity := i.minQuantity,
    unit := i.unit, status := formatStatus i.quantity i.minQuantity, price := i.price }

/-- Handler of `GET /api/items`: active rows, formatted. -/
def getItems (db : DB) : List ItemView :=
  (db.items.filter (fun i => i.isActive == 1)).map formatItem

/-- Primitive write statements issued inside the status-change transaction. -/
inductive DBWrite where
  | updateItem (itemId : Nat) (newQty : Int) (st : String)
  | insertHistory (e : HistoryEntry)
  | updateRequest (rid : String) (st : String) (now : Nat)
deriving Repr, DecidableEq

/-- Effect of one committed primitive write on the store. -/
def applyWrite (db : DB) : DBWrite → DB
  | .updateItem itemId newQty st =>
    { db with items := db.items.map (fun i =>
        if i.id == itemId then { i with quantity := newQty, status := st } else i) }
  | .insertHistory e => { db with history := db.history ++ [e] }
  | .updateRequest rid st now =>
    { db with requests := db.requests.map (fun r =>
        if r.id == rid then { r with status := st, updatedAt := now } else r) }

/-- The two writes the approval loop issues for one join row. -/
def lineWrites (rid : String) (approvedBy : Option String) (row : JoinRow) : List DBWrite :=
  let newQty := max 0 (row.current_qty - row.requested_qty)
  [DBWrite.updateItem row.itemId newQty (deriveStatus newQty row.minQuantity),
   DBWrite.insertHistory (rowEntry rid approvedBy row)]

/-- The full list of writes the `PATCH /api/requests/:id/status` transaction
issues, in statement order, or the handler's thrown error. -/
def patchStatusWrites (db : DB) (rid status : String)
    (approvedBy : Option String) (now : Nat) : Except String (List DBWrite) :=
  match db.requests.find? (fun r => r.id == rid) with
  | none => .error ("Request not found")
  | some req =>
    let stock :=
      if status == ("approved") && !(req.status == ("approved")) then
        ((approvalLines db rid).map (lineWrites rid approvedBy)).flatten
      else []
    .ok (stock ++ [DBWrite.updateRequest rid status now])

/-- Execution of a write list inside an open transaction: any failing
statement triggers ROLLBACK to the snapshot taken at BEGIN; reaching the end
is COMMIT. -/
def runWrites (snapshot cur : DB) (ws : List DBWrite) (fail : Nat → Bool) (k : Nat) : DB × Bool :=
  match ws with
  | [] => (cur, true)
  | w :: rest =>
    if fail k then (snapshot, false)
    else runWrites snapshot (applyWrite cur w) rest fail (k + 1)

/-- Transactional execution of `PATCH /api/requests/:id/status` under a
failure oracle: index 0 stands for the reads (request row and join), index
`k + 1` for the k-th write statement. -/
def patchStatusTxn (db : DB) (rid status : String) (approvedBy : Option String)
    (now : Nat) (fail : Nat → Bool) : DB × Bool :=
  if fail 0 then (db, false)
  else
    match patchStatusWrites db rid status approvedBy now with
    | .error _ => (db, false)
    | .ok ws => runWrites db db ws fail 1

/-- Mutating operations of the HTTP surface, for whole-trace invariants. -/
inductive Op where
  | put (id : Nat) (b : PutItemBody)
  | post (b : PostItemBody)
  | del (id : Nat)
  | postReq (rid : String) (b : PostRequestBody) (now : Nat)
  | delReq (rid : String)
  | patch (rid : String) (status : String) (approvedBy : Option String) (now : Nat)
deriving Repr, DecidableEq

/-- Effect of one operation on the store; a handler error rolls back, leaving
the store as it was. -/
def step (db : DB) : Op → DB
  | .put id b =>
    match putItem db id b with
    | .ok db2 => db2
    | .error _ => db
  | .post b => (postItem db b).1
  | .del id => (deleteItem db id).1
  | .postReq rid b now =>
    match postRequest db rid b now with
    | .ok db2 => db2
    | .error _ => db
  | .delReq rid => (deleteRequest db rid).1
  | .patch rid st approvedBy now =>
    match patchRequestStatus db rid st approvedBy now with
    | .ok db2 => db2
    | .error _ => db

/-- Replay of a list of operations. -/
def run (db : DB) : List Op → DB
  | [] => db
  | op :: rest => run (step db op) rest

/-- The store of a fresh deployment. -/
def emptyDB : DB := { items := [], requests := [], requestItems := [], history := [], nextId := 0 }

/-- Side condition for one operation: an approval must be of a request whose
(joined) line items reference pairwise distinct items. -/
def stepOKb (db : DB) (op : Op) : Bool :=
  match op with
  | .patch rid st _ _ =>
    !(st == ("approved")) || List.Nodup ((approvalLines db rid).map (fun row => row.itemId))
  | _ => true

/-- Side condition along a whole trace. -/
def traceOKb (db : DB) : List Op → Bool
  | [] => true
  | op :: rest => stepOKb db op && traceOKb (step db op) rest

/-- History entries of one item, in insertion order. -/
def itemHistory (h : List HistoryEntry) (itemId : Nat) : List HistoryEntry :=
  h.filter (fun e => e.item_id == itemId)

/-- Per-entry ledger law the code actually maintains: exact for PUT-written
entries, clamped at 0 for approval-written entries. -/
def entryLaw (e : HistoryEntry) : Prop :=
  if e.change_type = ("request") then
    e.quantity_after = max 0 (e.quantity_before + e.quantity_change)
  else
    e.quantity_after = e.quantity_before + e.quantity_change

/-- Ledger chain consistency: for each item, every entry's `quantity_before`
equals the previous entry's `quantity_after`. -/
def chainOK (h : List HistoryEntry) : Prop :=
  ∀ itemId : Nat,
    (itemHistory h itemId).Chain' (fun a b => b.quantity_before = a.quantity_after)

/-- Running quantity an item's ledger ends at, if it has any entry. -/
def lastQty (h : List HistoryEntry) (itemId : Nat) : Option Int :=
  ((itemHistory h itemId).getLast?).map (fun e => e.quantity_after)

/-- Inductive invariant tying the `items` table to the `stock_history`
ledger. -/
def Inv (db : DB) : Prop :=
  (db.items.map (fun i => i.id)).Nodup ∧
  (∀ i ∈ db.items, i.id < db.nextId) ∧
  (∀ e ∈ db.history, e.item_id < db.nextId) ∧
  (∀ i ∈ db.items, ∀ q, lastQty db.history i.id = some q → i.quantity = q) ∧
  (∀ e ∈ db.history, entryLaw e) ∧
  chainOK db.history

/-- Net effect of the approval loop on one item row, provided the join rows
carry pairwise distinct item ids: the row for the item (if any) dictates its
new quantity and status. -/
def rowUpdate (rows : List JoinRow) (i : Item) : Item :=
  match rows.find? (fun row => row.itemId == i.id) with
  | some row =>
    let newQty := max 0 (row.current_qty - row.requested_qty)
    { i with quantity := newQty, status := deriveStatus newQty row.minQuantity }
  | none => i

/-- Catalog item used by the concrete examples: quantity 10, minQuantity 2. -/
def itemA : Item :=
  { id := 0, name := ("A"), description := (""), category := ("office"),
    quantity := 10, minQuantity := 2, unit := ("pcs"), price := 0,
    status := ("in-stock"), isActive := 1 }

/-- Pending request used by the concrete examples. -/
def reqR1 : Request :=
  { id := ("r1"), projectName := ("P"), requesterId := ("u1"), reason := (""),
    priority := ("medium"), dueDate := none, status := ("pending"), updatedAt := 0 }

/-- Store with one item and one pending request asking 5 of it. -/
def exDB : DB :=
  { items := [itemA], requests := [reqR1],
    requestItems := [{ requestId := ("r1"), itemId := 0, quantity := 5 }],
    history := [], nextId := 1 }

/-- Store whose single pending request asks 20 of an item holding 10. -/
def exDB20 : DB :=
  { exDB with requestItems := [{ requestId := ("r1"), itemId := 0, quantity := 20 }] }

/-- Store whose request is already completed. -/
def exDBcompleted : DB :=
  { exDB with requests := [{ reqR1 with status := ("completed") }] }

/-- Store whose request is already approved. -/
def exDBapproved : DB :=
  { exDB with requests := [{ reqR1 with status := ("approved") }] }

/-- Item-creation body with quantity 0. -/
def zeroQtyBody : PostItemBody :=
  { name := ("Z"), description := (""), category := ("office"), quantity := some 0 }

/-- Trace reaching a clamped approval from a fresh deployment: create an item
holding 10, request 20 of it, approve. -/
def clampTrace : List Op :=
  [Op.post { name := ("A"), description := (""), category := ("office"),
             quantity := some 10, minQuantity := some 2 },
   Op.postReq ("r1") { project_name := ("P"), requester_id := ("u1"),
                       items := [{ item_id := 0, quantity := 20 }] } 0,
   Op.patch ("r1") ("approved") (some ("boss")) 1]

/-- Trace approving a request that lists the same item twice (3 and 4 of an
item holding 10). -/
def dupTrace : List Op :=
  [Op.post { name := ("A"), description := (""), category := ("office"),
             quantity := some 10, minQuantity := some 2 },
   Op.postReq ("r1") { project_name := ("P"), requester_id := ("u1"),
                       items := [{ item_id := 0, quantity := 3 },
                                 { item_id := 0, quantity := 4 }] } 0,
   Op.patch ("r1") ("approved") none 1]

/-- PUT body setting the quantity to 3. -/
def qtyThreeBody : PutItemBody := { quantity := some 3, userId := some ("u1") }

/-- Store `exDB` after `PUT /api/items/0` with `qtyThreeBody`. -/
def exDBafterPut : DB :=
  { exDB with
    items := [{ itemA with quantity := 3 }],
    history := [{ item_id := 0, change_type := ("adjustment"), quantity_before := 10,
                  quantity_change := -7, quantity_after := 3, notes := ("Manual update"),
                  created_by := some ("u1") }] }

/-- Store `exDB` after approving request r1 (5 of item 0) at time 7. -/
def exDBafterApprove : DB :=
  { exDB with
    items := [{ itemA with quantity := 5 }],
    requests := [{ reqR1 with status := ("approved"), updatedAt := 7 }],
    history := [{ item_id := 0, change_type := ("request"), quantity_before := 10,
                  quantity_change := -5, quantity_after := 5,
                  notes := requestNote ("r1"), created_by := some ("boss") }] }

theorem applyApprovalLine_requests (rid : String) (ab : Option String) (db : DB) (row : JoinRow) :
    (applyApprovalLine rid ab db row).requests = db.requests := rfl

theorem applyApprovalLine_requestItems (rid : String) (ab : Option String) (db : DB) (row : JoinRow) :
    (applyApprovalLine rid ab db row).requestItems = db.requestItems := rfl

theorem applyApprovalLine_nextId (rid : String) (ab : Option String) (db : DB) (row : JoinRow) :
    (applyApprovalLine rid ab db row).nextId = db.nextId := rfl

theorem applyApprovalLine_history (rid : String) (ab : Option String) (db : DB) (row : JoinRow) :
    (applyApprovalLine rid ab db row).history = db.history ++ [rowEntry rid ab row] := rfl

theorem applyApprovalLine_items (rid : String) (ab : Option String) (db : DB) (row : JoinRow) :
    (applyApprovalLine rid ab db row).items = db.items.map (fun i =>
      if i.id == row.itemId then
        { i with quantity := max 0 (row.current_qty - row.requested_qty),
                 status := deriveStatus (max 0 (row.current_qty - row.requested_qty)) row.minQuantity }
      else i) := rfl

theorem foldl_approval_requests (rid : String) (ab : Option String) (rows : List JoinRow) :
    ∀ db : DB, (rows.foldl (applyApprovalLine rid ab) db).requests = db.requests := by
  induction rows with
  | nil => intro db; rfl
  | cons r rest ih =>
    intro db
    rw [List.foldl_cons, ih, applyApprovalLine_requests]

theorem foldl_approval_requestItems (rid : String) (ab : Option String) (rows : List JoinRow) :
    ∀ db : DB, (rows.foldl (applyApprovalLine rid ab) db).requestItems = db.requestItems := by
  induction rows with
  | nil => intro db; rfl
  | cons r rest ih =>
    intro db
    rw [List.foldl_cons, ih, applyApprovalLine_requestItems]

theorem foldl_approval_nextId (rid : String) (ab : Option String) (rows : List JoinRow) :
    ∀ db : DB, (rows.foldl (applyApprovalLine rid ab) db).nextId = db.nextId := by
  induction rows with
  | nil => intro db; rfl
  | cons r rest ih =>
    intro db
    rw [List.foldl_cons, ih, applyApprovalLine_nextId]

theorem foldl_approval_history (rid : String) (ab : Option String) (rows : List JoinRow) :
    ∀ db : DB, (rows.foldl (applyApprovalLine rid ab) db).history
      = db.history ++ rows.map (rowEntry rid ab) := by
  induction rows with
  | nil => intro db; simp
  | cons r rest ih =>
    intro db
    rw [List.foldl_cons, ih, applyApprovalLine_history, List.map_cons, List.append_assoc,
      List.singleton_append]

theorem rowUpdate_nil (i : Item) : rowUpdate [] i = i := rfl

theorem rowUpdate_id (rows : List JoinRow) (i : Item) : (rowUpdate rows i).id = i.id := by
  rw [rowUpdate]
  cases rows.find? (fun row => row.itemId == i.id) <;> rfl

theorem rowUpdate_cons_matched (r : JoinRow) (rest : List JoinRow) (i : Item)
    (h : (r.itemId == i.id) = true) :
    rowUpdate (r :: rest) i =
      { i with quantity := max 0 (r.current_qty - r.requested_qty),
               status := deriveStatus (max 0 (r.current_qty - r.requested_qty)) r.minQuantity } := by
  rw [rowUpdate, List.find?_cons_of_pos (p := fun row => row.itemId == i.id) rest h]

theorem rowUpdate_cons_unmatched (r : JoinRow) (rest : List JoinRow) (i : Item)
    (h : ¬ (r.itemId == i.id) = true) :
    rowUpdate (r :: rest) i = rowUpdate rest i := by
  rw [rowUpdate, List.find?_cons_of_neg (p := fun row => row.itemId == i.id) rest h, rowUpdate]

theorem rowUpdate_no_row (rows : List JoinRow) (i : Item)
    (h : rows.find? (fun row => row.itemId == i.id) = none) :
    rowUpdate rows i = i := by
  rw [rowUpdate, h]

theorem foldl_approval_items (rid : String) (ab : Option String) (rows : List JoinRow)
    (hnd : (rows.map (fun row => row.itemId)).Nodup) :
    ∀ db : DB, (rows.foldl (applyApprovalLine rid ab) db).items = db.items.map (rowUpdate rows) := by
  induction rows with
  | nil =>
    intro db
    rw [List.foldl_nil]
    have h1 : List.map (rowUpdate []) db.items = List.map (fun i => i) db.items :=
      List.map_congr_left (fun i _ => rowUpdate_nil i)
    rw [h1, List.map_id']
  | cons r rest ih =>
    intro db
    rw [List.map_cons] at hnd
    have hnotin : r.itemId ∉ rest.map (fun row => row.itemId) := (List.nodup_cons.mp hnd).1
    have hnd' : (rest.map (fun row => row.itemId)).Nodup := (List.nodup_cons.mp hnd).2
    rw [List.foldl_cons, ih hnd', applyApprovalLine_items, List.map_map]
    refine List.map_congr_left ?_
    intro i _
    by_cases hid : (i.id == r.itemId) = true
    · have hid' : i.id = r.itemId := by simpa using hid
      have hmt : (r.itemId == i.id) = true := by simp [hid']
      rw [Function.comp_apply, if_pos hid, rowUpdate_cons_matched r rest i hmt]
      have hnone : rest.find? (fun row =>
          row.itemId == ({ i with
            quantity := max 0 (r.current_qty - r.requested_qty),
            status := deriveStatus (max 0 (r.current_qty - r.requested_qty)) r.minQuantity } : Item).id) = none := by
        refine List.find?_eq_none.mpr ?_
        intro row hrow hEq
        have hEq' : row.itemId = i.id := by simpa using hEq
        exact hnotin (by
          rw [← hid', ← hEq']
          exact List.mem_map_of_mem _ hrow)
      rw [rowUpdate_no_row _ _ hnone]
    · have hmt : ¬ (r.itemId == i.id) = true := by
        intro hEq
        exact hid (by simp [(by simpa using hEq : r.itemId = i.id)])
      rw [Function.comp_apply, if_neg hid, rowUpdate_cons_unmatched r rest i hmt]

theorem find?_map_key {α : Type} (l : List α) (g : α → α) (p : α → Bool)
    (hg : ∀ a, p (g a) = p a) :
    (l.map g).find? p = (l.find? p).map g := by
  rw [List.find?_map]
  have h : p ∘ g = p := funext hg
  rw [h]

theorem find?_rows_of_nodup {rows : List JoinRow}
    (hnd : (rows.map (fun row => row.itemId)).Nodup) {row : JoinRow} (hm : row ∈ rows) :
    rows.find? (fun r => r.itemId == row.itemId) = some row := by
  induction rows with
  | nil => cases hm
  | cons r rest ih =>
    rw [List.map_cons] at hnd
    rcases List.mem_cons.mp hm with h | h
    · subst h
      exact List.find?_cons_of_pos (p := fun r => r.itemId == row.itemId) (a := row) rest (by simp)
    · have hne : ¬ (r.itemId == row.itemId) = true := by
        intro hEq
        have heq : r.itemId = row.itemId := by simpa using hEq
        refine (List.nodup_cons.mp hnd).1 ?_
        rw [heq]
        exact List.mem_map_of_mem _ h
      rw [List.find?_cons_of_neg (p := fun r => r.itemId == row.itemId) rest hne]
      exact ih (List.nodup_cons.mp hnd).2 h

theorem mem_approvalLines {db : DB} {rid : String} {ri : RequestItem} {i : Item}
    (hri : ri ∈ db.requestItems) (hrid : ri.requestId = rid)
    (hitem : db.items.find? (fun it => it.id == ri.itemId) = some i) :
    ({ itemId := ri.itemId, requested_qty := ri.quantity,
       current_qty := i.quantity, minQuantity := i.minQuantity } : JoinRow) ∈ approvalLines db rid := by
  unfold approvalLines
  refine List.mem_filterMap.mpr ⟨ri, ?_, ?_⟩
  · exact List.mem_filter.mpr ⟨hri, by simp [hrid]⟩
  · rw [hitem]
    rfl

theorem approvalLines_snapshot {db : DB} {rid : String} {row : JoinRow}
    (hm : row ∈ approvalLines db rid) :
    ∃ i, db.items.find? (fun it => it.id == row.itemId) = some i ∧
      row.current_qty = i.quantity ∧ row.minQuantity = i.minQuantity := by
  unfold approvalLines at hm
  rcases List.mem_filterMap.mp hm with ⟨ri, hri, hmap⟩
  rcases Option.map_eq_some'.mp hmap with ⟨i, hfind, heq⟩
  subst heq
  exact ⟨i, hfind, rfl, rfl⟩

theorem runWrites_cases (snap : DB) (fail : Nat → Bool) (ws : List DBWrite) :
    ∀ (cur : DB) (k : Nat), runWrites snap cur ws fail k = (snap, false) ∨
      runWrites snap cur ws fail k = (ws.foldl applyWrite cur, true) := by
  induction ws with
  | nil =>
    intro cur k
    right
    rfl
  | cons w rest ih =>
    intro cur k
    by_cases h : fail k = true
    · left
      simp [runWrites, h]
    · rcases ih (applyWrite cur w) (k + 1) with h2 | h2
      · left
        simpa [runWrites, h] using h2
      · right
        simpa [runWrites, h, List.foldl_cons] using h2

theorem foldl_lineWrites (rid : String) (ab : Option String) (db : DB) (row : JoinRow) :
    (lineWrites rid ab row).foldl applyWrite db = applyApprovalLine rid ab db row := rfl

theorem foldl_flattened_lineWrites (rid : String) (ab : Option String) (rows : List JoinRow) :
    ∀ db : DB, (((rows.map (lineWrites rid ab)).flatten).foldl applyWrite db)
      = rows.foldl (applyApprovalLine rid ab) db := by
  induction rows with
  | nil =>
    intro db
    rfl
  | cons r rest ih =>
    intro db
    rw [List.map_cons, List.flatten_cons, List.foldl_append, foldl_lineWrites, ih,
      List.foldl_cons]

/-- C3 (confirmed): the status-change transaction is atomic.  Whatever
statement the failure oracle makes fail, the observable store is either
exactly the pre-call store (full rollback: the request keeps its status and
every item its quantity) or the fully applied result of the handler; a state
with only part of the line items deducted is never produced. -/
theorem patch_status_transaction_atomic (db : DB) (rid status : String)
    (ab : Option String) (now : Nat) (fail : Nat → Bool) :
    patchStatusTxn db rid status ab now fail = (db, false) ∨
    ∃ db2, patchRequestStatus db rid status ab now = Except.ok db2 ∧
      patchStatusTxn db rid status ab now fail = (db2, true) := by
  by_cases h0 : fail 0 = true
  · left
    simp [patchStatusTxn, h0]
  · cases hreq : db.requests.find? (fun r => r.id == rid) with
    | none =>
      left
      simp [patchStatusTxn, patchStatusWrites, h0, hreq]
    | some req =>
      cases hg : (status == ("approved")) && !(req.status == ("approved")) with
      | false =>
        have hws : patchStatusWrites db rid status ab now =
            Except.ok [DBWrite.updateRequest rid status now] := by
          simp [patchStatusWrites, hreq, hg]
        have hpr : patchRequestStatus db rid status ab now = Except.ok
            { db with requests := db.requests.map (fun r =>
              if r.id == rid then { r with status := status, updatedAt := now } else r) } := by
          simp [patchRequestStatus, hreq, hg]
        rcases runWrites_cases db fail [DBWrite.updateRequest rid status now] db 1 with h | h
        · left
          simp [patchStatusTxn, h0, hws, h]
        · right
          refine ⟨_, hpr, ?_⟩
          simp only [patchStatusTxn, h0, Bool.false_eq_true, if_false, hws]
          rw [h]
          rfl
      | true =>
        have hws : patchStatusWrites db rid status ab now =
            Except.ok ((((approvalLines db rid).map (lineWrites rid ab)).flatten)
              ++ [DBWrite.updateRequest rid status now]) := by
          simp [patchStatusWrites, hreq, hg]
        have hpr : patchRequestStatus db rid status ab now = Except.ok
            { ((approvalLines db rid).foldl (applyApprovalLine rid ab) db) with
              requests := ((approvalLines db rid).foldl (applyApprovalLine rid ab) db).requests.map
                (fun r => if r.id == rid then { r with status := status, updatedAt := now } else r) } := by
          simp [patchRequestStatus, hreq, hg]
        rcases runWrites_cases db fail ((((approvalLines db rid).map (lineWrites rid ab)).flatten)
            ++ [DBWrite.updateRequest rid status now]) db 1 with h | h
        · left
          simp [patchStatusTxn, h0, hws, h]
        · right
          refine ⟨_, hpr, ?_⟩
          simp only [patchStatusTxn, h0, Bool.false_eq_true, if_false, hws]
          rw [h, List.foldl_append, foldl_flattened_lineWrites]
          rfl

/-- C1 (confirmed): approving a request whose current status is not yet
`approved` persists, for every line item that references an existing item,
the new quantity `max 0 (currentQuantity - requestedQuantity)` — requesting
more than is available does not fail the call, it clamps the stock at 0. -/
theorem approval_deducts_with_clamping (db : DB) (rid : String) (ab : Option String)
    (now : Nat) (req : Request) (ri : RequestItem) (i : Item)
    (hreq : db.requests.find? (fun r => r.id == rid) = some req)
    (hst : ¬ req.status = ("approved"))
    (hnd : ((approvalLines db rid).map (fun row => row.itemId)).Nodup)
    (hri : ri ∈ db.requestItems) (hrid : ri.requestId = rid)
    (hitem : db.items.find? (fun it => it.id == ri.itemId) = some i) :
    ∃ db2, patchRequestStatus db rid ("approved") ab now = Except.ok db2 ∧
      (db2.items.find? (fun it => it.id == ri.itemId)).map (fun it => it.quantity)
        = some (max 0 (i.quantity - ri.quantity)) := by
  have hg : ((("approved") : String) == ("approved")) && !(req.status == ("approved")) = true := by
    simp [hst]
  refine ⟨{ ((approvalLines db rid).foldl (applyApprovalLine rid ab) db) with
      requests := ((approvalLines db rid).foldl (applyApprovalLine rid ab) db).requests.map
        (fun r => if r.id == rid then { r with status := ("approved"), updatedAt := now } else r) },
    ?_, ?_⟩
  · simp [patchRequestStatus, hreq, hg, hst]
  · have hii : i.id = ri.itemId := by simpa using List.find?_some hitem
    have hrowmem : ({ itemId := ri.itemId, requested_qty := ri.quantity,
                      current_qty := i.quantity, minQuantity := i.minQuantity } : JoinRow) ∈ approvalLines db rid :=
      mem_approvalLines hri hrid hitem
    have hfindrow : (approvalLines db rid).find? (fun r => r.itemId == ri.itemId)
        = some ({ itemId := ri.itemId, requested_qty := ri.quantity,
                  current_qty := i.quantity, minQuantity := i.minQuantity } : JoinRow) :=
      find?_rows_of_nodup hnd hrowmem
    show (((approvalLines db rid).foldl (applyApprovalLine rid ab) db).items.find?
        (fun it => it.id == ri.itemId)).map (fun it => it.quantity)
      = some (max 0 (i.quantity - ri.quantity))
    rw [foldl_approval_items rid ab (approvalLines db rid) hnd db,
      find?_map_key db.items (rowUpdate (approvalLines db rid)) (fun it => it.id == ri.itemId)
        (fun a => by simp [rowUpdate_id]), hitem, Option.map_some', Option.map_some']
    rw [rowUpdate, hii, hfindrow]

/-- Witness for C1 at the concrete store: item 0 holds 10, the pending
request asks 5, approving persists quantity 5. -/
theorem approval_deducts_with_clamping_witness :
    ∃ db2, patchRequestStatus exDB ("r1") ("approved") (some ("boss")) 7 = Except.ok db2 ∧
      (db2.items.find? (fun it => it.id ==
          (({ requestId := ("r1"), itemId := 0, quantity := 5 } : RequestItem)).itemId)).map
        (fun it => it.quantity) = some (max 0 (itemA.quantity - 5)) :=
  approval_deducts_with_clamping exDB ("r1") (some ("boss")) 7 reqR1
    ({ requestId := ("r1"), itemId := 0, quantity := 5 }) itemA
    (by decide) (by decide) (by decide) (by decide) (by decide) (by decide)

theorem patchRequestStatus_ok_of_guard_false (db : DB) (rid status : String)
    (ab : Option String) (now : Nat) (req : Request)
    (hreq : db.requests.find? (fun r => r.id == rid) = some req)
    (hg : ((status == ("approved")) && !(req.status == ("approved"))) = false) :
    patchRequestStatus db rid status ab now = Except.ok
      { db with requests := db.requests.map (fun r =>
        if r.id == rid then { r with status := status, updatedAt := now } else r) } := by
  simp only [patchRequestStatus, hreq, hg, Bool.false_eq_true, if_false]

theorem patchRequestStatus_ok_of_guard_true (db : DB) (rid status : String)
    (ab : Option String) (now : Nat) (req : Request)
    (hreq : db.requests.find? (fun r => r.id == rid) = some req)
    (hg : ((status == ("approved")) && !(req.status == ("approved"))) = true) :
    patchRequestStatus db rid status ab now = Except.ok
      { ((approvalLines db rid).foldl (applyApprovalLine rid ab) db) with
        requests := ((approvalLines db rid).foldl (applyApprovalLine rid ab) db).requests.map
          (fun r => if r.id == rid then { r with status := status, updatedAt := now } else r) } := by
  simp only [patchRequestStatus, hreq, hg, if_true]

theorem requests_find?_after_map (l : List Request) (rid status : String) (now : Nat)
    (req : Request) (hreq : l.find? (fun r => r.id == rid) = some req) :
    (l.map (fun r => if r.id == rid then { r with status := status, updatedAt := now } else r)).find?
        (fun r => r.id == rid)
      = some { req with status := status, updatedAt := now } := by
  rw [find?_map_key l _ _ (fun a => by by_cases hh : (a.id == rid) = true <;> simp [hh]),
    hreq, Option.map_some']
  have hh : (req.id == rid) = true := by simpa using List.find?_some hreq
  simp [hh]

/-- C2 (confirmed): setting an already-approved request to `approved` again
touches neither item quantities nor the history; consequently approving the
same request twice deducts each line exactly once. -/
theorem approve_twice_deducts_once (db : DB) (rid : String) (ab ab2 : Option String)
    (now now2 : Nat) (req : Request)
    (hreq : db.requests.find? (fun r => r.id == rid) = some req) :
    (req.status = ("approved") →
      ∃ db2, patchRequestStatus db rid ("approved") ab now = Except.ok db2 ∧
        db2.items = db.items ∧ db2.history = db.history) ∧
    (∀ db1, patchRequestStatus db rid ("approved") ab now = Except.ok db1 →
      ∃ db2, patchRequestStatus db1 rid ("approved") ab2 now2 = Except.ok db2 ∧
        db2.items = db1.items ∧ db2.history = db1.history) := by
  constructor
  · intro happ
    have hg : (((("approved") : String) == ("approved")) && !(req.status == ("approved"))) = false := by
      simp [happ]
    exact ⟨_, patchRequestStatus_ok_of_guard_false db rid ("approved") ab now req hreq hg, rfl, rfl⟩
  · intro db1 h1
    have hr1 : db1.requests.find? (fun r => r.id == rid)
        = some { req with status := ("approved"), updatedAt := now } := by
      cases hg : ((("approved") : String) == ("approved")) && !(req.status == ("approved")) with
      | true =>
        have h2 := patchRequestStatus_ok_of_guard_true db rid ("approved") ab now req hreq hg
        have hdb1 : db1 = _ := Except.ok.inj (h1.symm.trans h2)
        rw [hdb1]
        show (((approvalLines db rid).foldl (applyApprovalLine rid ab) db).requests.map _).find? _ = _
        rw [foldl_approval_requests]
        exact requests_find?_after_map db.requests rid ("approved") now req hreq
      | false =>
        have h2 := patchRequestStatus_ok_of_guard_false db rid ("approved") ab now req hreq hg
        have hdb1 : db1 = _ := Except.ok.inj (h1.symm.trans h2)
        rw [hdb1]
        exact requests_find?_after_map db.requests rid ("approved") now req hreq
    have hg2 : (((("approved") : String) == ("approved"))
        && !((({ req with status := ("approved"), updatedAt := now } : Request)).status == ("approved"))) = false := by
      simp
    exact ⟨_, patchRequestStatus_ok_of_guard_false db1 rid ("approved") ab2 now2 _ hr1 hg2, rfl, rfl⟩

/-- Witness for C2: re-approving the already-approved request of
`exDBapproved` leaves items and history untouched. -/
theorem approve_twice_deducts_once_witness :
    ∃ db2, patchRequestStatus exDBapproved ("r1") ("approved") none 3 = Except.ok db2 ∧
      db2.items = exDBapproved.items ∧ db2.history = exDBapproved.history :=
  (approve_twice_deducts_once exDBapproved ("r1") none none 3 4
    ({ reqR1 with status := ("approved") }) (by decide)).1 rfl

/-- C5 (confirmed): the history entries appended by an approval carry change
type `request`, before = the item's pre-deduction quantity, change = minus
the nominal requested quantity (unclamped), after = the clamped quantity. -/
theorem approval_history_entries (db : DB) (rid : String) (ab : Option String)
    (now : Nat) (req : Request)
    (hreq : db.requests.find? (fun r => r.id == rid) = some req)
    (hst : ¬ req.status = ("approved")) :
    ∃ db2, patchRequestStatus db rid ("approved") ab now = Except.ok db2 ∧
      db2.history = db.history ++ (approvalLines db rid).map (fun row =>
        { item_id := row.itemId, change_type := ("request"),
          quantity_before := row.current_qty, quantity_change := -row.requested_qty,
          quantity_after := max 0 (row.current_qty - row.requested_qty),
          notes := requestNote rid, created_by := ab }) ∧
      ∀ row ∈ approvalLines db rid, ∃ i,
        db.items.find? (fun it => it.id == row.itemId) = some i ∧ row.current_qty = i.quantity := by
  have hg : (((("approved") : String) == ("approved")) && !(req.status == ("approved"))) = true := by
    simp [hst]
  refine ⟨_, patchRequestStatus_ok_of_guard_true db rid ("approved") ab now req hreq hg, ?_, ?_⟩
  · show ((approvalLines db rid).foldl (applyApprovalLine rid ab) db).history = _
    rw [foldl_approval_history]
    rfl
  · intro row hm
    rcases approvalLines_snapshot hm with ⟨i, hf, hq, _⟩
    exact ⟨i, hf, hq⟩

/-- Witness for C5 at the over-request store: approving 20 of an item holding
10 appends exactly one entry {before 10, change -20, after 0}. -/
theorem approval_history_entries_witness :
    (∃ db2, patchRequestStatus exDB20 ("r1") ("approved") none 7 = Except.ok db2 ∧
      db2.history = exDB20.history ++ (approvalLines exDB20 ("r1")).map (fun row =>
        { item_id := row.itemId, change_type := ("request"),
          quantity_before := row.current_qty, quantity_change := -row.requested_qty,
          quantity_after := max 0 (row.current_qty - row.requested_qty),
          notes := requestNote ("r1"), created_by := none }) ∧
      ∀ row ∈ approvalLines exDB20 ("r1"), ∃ i,
        exDB20.items.find? (fun it => it.id == row.itemId) = some i ∧ row.current_qty = i.quantity) ∧
    (patchRequestStatus exDB20 ("r1") ("approved") none 7).toOption.map (fun d => d.history)
      = some [{ item_id := 0, change_type := ("request"), quantity_before := 10,
                quantity_change := -20, quantity_after := 0,
                notes := requestNote ("r1"), created_by := none }] :=
  ⟨approval_history_entries exDB20 ("r1") none 7 reqR1 (by decide) (by decide), by decide⟩

/-- C7 counterexample: rejecting the pending request of `exDB` at time 7 also
rewrites the request's `updatedAt` column — more than the status field
changes. -/
theorem reject_changes_updatedAt :
    (patchRequestStatus exDB ("r1") ("rejected") none 7).toOption.map
        (fun d => d.requests.map (fun r => r.updatedAt)) = some [7] ∧
    exDB.requests.map (fun r => r.updatedAt) = [0] ∧ (7 : Nat) ≠ 0 := by decide

/-- C7 amended: a status change away from `approved` updates only the
request's status and updatedAt columns: items, history and line items are
untouched, and every other request row is untouched. -/
theorem non_approve_updates_only_request_row (db : DB) (rid status : String)
    (ab : Option String) (now : Nat) (req : Request)
    (hreq : db.requests.find? (fun r => r.id == rid) = some req)
    (hst : ¬ status = ("approved")) :
    ∃ db2, patchRequestStatus db rid status ab now = Except.ok db2 ∧
      db2.items = db.items ∧ db2.history = db.history ∧
      db2.requestItems = db.requestItems ∧
      db2.requests = db.requests.map (fun r =>
        if r.id == rid then { r with status := status, updatedAt := now } else r) := by
  have hg : ((status == ("approved")) && !(req.status == ("approved"))) = false := by
    simp [hst]
  exact ⟨_, patchRequestStatus_ok_of_guard_false db rid status ab now req hreq hg,
    rfl, rfl, rfl, rfl⟩

/-- Witness for the amended C7: rejecting the pending request of `exDB`. -/
theorem non_approve_updates_only_request_row_witness :
    ∃ db2, patchRequestStatus exDB ("r1") ("rejected") none 7 = Except.ok db2 ∧
      db2.items = exDB.items ∧ db2.history = exDB.history ∧
      db2.requestItems = exDB.requestItems ∧
      db2.requests = exDB.requests.map (fun r =>
        if r.id == ("r1") then { r with status := ("rejected"), updatedAt := 7 } else r) :=
  non_approve_updates_only_request_row exDB ("r1") ("rejected") none 7 reqR1
    (by decide) (by decide)

/-- C9 counterexample: a completed request is not immutable — setting its
status to `rejected` succeeds and changes the stored status. -/
theorem completed_request_status_still_changes :
    (patchRequestStatus exDBcompleted ("r1") ("rejected") none 7).toOption.map
        (fun d => d.requests.map (fun r => r.status)) = some [("rejected")] ∧
    exDBcompleted.requests.map (fun r => r.status) = [("completed")] ∧
    ¬ (("rejected") : String) = ("completed") := by decide

/-- C9 amended: no guard protects a completed request: any further setStatus
rewrites its status (and updatedAt) exactly as for a pending request, and
setting `approved` triggers the full stock deduction, because the handler
only checks that the current status is not already `approved`. -/
theorem completed_request_not_guarded (db : DB) (rid status : String)
    (ab : Option String) (now : Nat) (req : Request)
    (hreq : db.requests.find? (fun r => r.id == rid) = some req)
    (hc : req.status = ("completed")) :
    ∃ db2, patchRequestStatus db rid status ab now = Except.ok db2 ∧
      db2.requests.find? (fun r => r.id == rid)
        = some { req with status := status, updatedAt := now } ∧
      (status = ("approved") →
        db2.history = db.history ++ (approvalLines db rid).map (rowEntry rid ab)) := by
  by_cases hap : status = ("approved")
  · have hg : ((status == ("approved")) && !(req.status == ("approved"))) = true := by
      simp [hap, hc]
    refine ⟨_, patchRequestStatus_ok_of_guard_true db rid status ab now req hreq hg, ?_, ?_⟩
    · show (((approvalLines db rid).foldl (applyApprovalLine rid ab) db).requests.map _).find? _ = _
      rw [foldl_approval_requests]
      exact requests_find?_after_map db.requests rid status now req hreq
    · intro _
      show ((approvalLines db rid).foldl (applyApprovalLine rid ab) db).history = _
      exact foldl_approval_history rid ab (approvalLines db rid) db
  · have hg : ((status == ("approved")) && !(req.status == ("approved"))) = false := by
      simp [hap]
    refine ⟨_, patchRequestStatus_ok_of_guard_false db rid status ab now req hreq hg, ?_, ?_⟩
    · exact requests_find?_after_map db.requests rid status now req hreq
    · intro h
      exact absurd h hap

/-- Witness for the amended C9: approving the completed request of
`exDBcompleted` rewrites its status and deducts stock. -/
theorem completed_request_not_guarded_witness :
    ∃ db2, patchRequestStatus exDBcompleted ("r1") ("approved") none 9 = Except.ok db2 ∧
      db2.requests.find? (fun r => r.id == ("r1"))
        = some { reqR1 with status := ("approved"), updatedAt := 9 } ∧
      ((("approved") : String) = ("approved") →
        db2.history = exDBcompleted.history
          ++ (approvalLines exDBcompleted ("r1")).map (rowEntry ("r1") none)) :=
  completed_request_not_guarded exDBcompleted ("r1") ("approved") none 9
    ({ reqR1 with status := ("completed") }) (by decide) rfl

/-- C10 (confirmed): DELETE items always answers success — also when no row
matches the id — and its only effect is flipping the matching row's isActive
to 0: the row stays, every other column and every other table is unchanged. -/
theorem delete_item_soft_and_total (db : DB) (id : Nat) :
    (deleteItem db id).2 = true ∧
    (deleteItem db id).1.history = db.history ∧
    (deleteItem db id).1.requests = db.requests ∧
    (deleteItem db id).1.requestItems = db.requestItems ∧
    (deleteItem db id).1.items.length = db.items.length ∧
    (∀ j : Nat, ∀ i i2 : Item, db.items[j]? = some i →
      (deleteItem db id).1.items[j]? = some i2 →
      i2.id = i.id ∧ i2.name = i.name ∧ i2.description = i.description ∧
      i2.category = i.category ∧ i2.quantity = i.quantity ∧
      i2.minQuantity = i.minQuantity ∧ i2.unit = i.unit ∧ i2.price = i.price ∧
      i2.status = i.status ∧ i2.isActive = (if i.id = id then 0 else i.isActive)) := by
  refine ⟨rfl, rfl, rfl, rfl, by simp [deleteItem], ?_⟩
  intro j i i2 hi hi2
  have hmap : (deleteItem db id).1.items[j]?
      = some (if i.id == id then { i with isActive := 0 } else i) := by
    simp [deleteItem, List.getElem?_map, hi]
  rw [hmap] at hi2
  have heq : (if i.id == id then ({ i with isActive := 0 } : Item) else i) = i2 :=
    Option.some.inj hi2
  by_cases hid : (i.id == id) = true
  · rw [if_pos hid] at heq
    have hid' : i.id = id := by simpa using hid
    rw [← heq]
    simp [hid']
  · rw [if_neg hid] at heq
    have hid' : ¬ i.id = id := by simpa using hid
    rw [← heq]
    simp [hid']

/-- Witness for C10 at `exDB`: deleting item 0 flips only its isActive. -/
theorem delete_item_soft_and_total_witness :
    ({ itemA with isActive := 0 } : Item).id = itemA.id ∧
    ({ itemA with isActive := 0 } : Item).name = itemA.name ∧
    ({ itemA with isActive := 0 } : Item).description = itemA.description ∧
    ({ itemA with isActive := 0 } : Item).category = itemA.category ∧
    ({ itemA with isActive := 0 } : Item).quantity = itemA.quantity ∧
    ({ itemA with isActive := 0 } : Item).minQuantity = itemA.minQuantity ∧
    ({ itemA with isActive := 0 } : Item).unit = itemA.unit ∧
    ({ itemA with isActive := 0 } : Item).price = itemA.price ∧
    ({ itemA with isActive := 0 } : Item).status = itemA.status ∧
    ({ itemA with isActive := 0 } : Item).isActive = (if itemA.id = 0 then 0 else itemA.isActive) :=
  (delete_item_soft_and_total exDB 0).2.2.2.2.2 0 itemA ({ itemA with isActive := 0 })
    (by decide) (by decide)

/-- C4 counterexample: POST items with quantity 0 stores the status string
`in-stock` although deriving from quantity 0 yields `out-of-stock`. -/
theorem post_item_stores_underived_status :
    ((postItem emptyDB zeroQtyBody).2).status = ("in-stock") ∧
    ((postItem emptyDB zeroQtyBody).2).quantity = 0 ∧
    ((postItem emptyDB zeroQtyBody).2).minQuantity = 0 ∧
    deriveStatus 0 0 = ("out-of-stock") ∧
    ¬ ((postItem emptyDB zeroQtyBody).2).status
        = deriveStatus ((postItem emptyDB zeroQtyBody).2).quantity
            ((postItem emptyDB zeroQtyBody).2).minQuantity ∧
    (postItem emptyDB zeroQtyBody).1.items.map (fun i => i.status) = [("in-stock")] := by decide

/-- C8: the PUT handler issues its item UPDATE and its history INSERT as two
separate auto-committed statements; failing the INSERT (step 2) after the
UPDATE (step 1) leaves the new quantity persisted with no history entry,
while the failure-free run records the entry — the two can diverge. -/
theorem put_item_history_can_diverge :
    (putItemWithFailures exDB 0 qtyThreeBody (fun k => k == 2)).2 = false ∧
    (putItemWithFailures exDB 0 qtyThreeBody (fun k => k == 2)).1.items.map
      (fun i => i.quantity) = [3] ∧
    (putItemWithFailures exDB 0 qtyThreeBody (fun k => k == 2)).1.history = [] ∧
    (putItem exDB 0 qtyThreeBody).toOption = some exDBafterPut ∧
    exDBafterPut.history.length = 1 := by decide

theorem applyItemUpdates_status (b : PutItemBody) (i : Item) :
    (applyItemUpdates b i).status = i.status := rfl

theorem putItem_items_cases (db : DB) (id : Nat) (b : PutItemBody) (db2 : DB)
    (h : putItem db id b = Except.ok db2) :
    db2.items = db.items ∨
    db2.items = db.items.map (fun i => if i.id == id then applyItemUpdates b i else i) := by
  unfold putItem at h
  split at h
  · exact Except.noConfusion h
  · split at h
    · left
      rw [← Except.ok.inj h]
    · split at h
      · split at h
        · right
          rw [← Except.ok.inj h]
        · right
          rw [← Except.ok.inj h]
      · right
        rw [← Except.ok.inj h]

theorem formatStatus_eq_deriveStatus (q minQ : Int) (hq : 0 ≤ q) :
    formatStatus q minQ = deriveStatus q minQ := by
  unfold formatStatus deriveStatus
  rcases lt_or_eq_of_le hq with hlt | heq
  · rw [if_pos hlt, if_neg (by omega : ¬ q = 0)]
  · rw [← heq]
    norm_num

/-- C4 amended: the stored status column equals the derivation only for
approval-driven deduction; POST items stores the constant `in-stock`, PUT
never rewrites the stored status, and the GET read projections serve a status
recomputed from quantity and minQuantity (matching the derivation on every
non-negative quantity). -/
theorem stored_status_amended :
    (∀ (db : DB) (b : PostItemBody), ((postItem db b).2).status = ("in-stock")) ∧
    (∀ (db : DB) (id : Nat) (b : PutItemBody) (db2 : DB), putItem db id b = Except.ok db2 →
      ∀ j : Nat, (db2.items[j]?).map (fun i => i.status) = (db.items[j]?).map (fun i => i.status)) ∧
    (∀ (db : DB) (rid : String) (ab : Option String) (now : Nat) (req : Request) (db2 : DB),
      db.requests.find? (fun r => r.id == rid) = some req →
      ¬ req.status = ("approved") →
      ((approvalLines db rid).map (fun row => row.itemId)).Nodup →
      patchRequestStatus db rid ("approved") ab now = Except.ok db2 →
      ∀ row ∈ approvalLines db rid,
        (db2.items.find? (fun it => it.id == row.itemId)).map (fun it => it.status)
          = some (deriveStatus (max 0 (row.current_qty - row.requested_qty)) row.minQuantity)) ∧
    (∀ i : Item, 0 ≤ i.quantity → (formatItem i).status = deriveStatus i.quantity i.minQuantity) := by
  refine ⟨fun db b => rfl, ?_, ?_, ?_⟩
  · intro db id b db2 h j
    rcases putItem_items_cases db id b db2 h with hi | hi
    · rw [hi]
    · rw [hi, List.getElem?_map]
      cases hj : db.items[j]? with
      | none => rfl
      | some i =>
        simp only [Option.map_some']
        by_cases hid : (i.id == id) = true
        · rw [if_pos hid, applyItemUpdates_status]
        · rw [if_neg hid]
  · intro db rid ab now req db2 hreq hst hnd h row hm
    have hg : (((("approved") : String) == ("approved")) && !(req.status == ("approved"))) = true := by
      simp [hst]
    have h2 := patchRequestStatus_ok_of_guard_true db rid ("approved") ab now req hreq hg
    have hdb2 : db2 = _ := Except.ok.inj (h.symm.trans h2)
    rcases approvalLines_snapshot hm with ⟨i, hf, _, _⟩
    have hii : i.id = row.itemId := by simpa using List.find?_some hf
    have hfindrow : (approvalLines db rid).find? (fun r => r.itemId == row.itemId) = some row :=
      find?_rows_of_nodup hnd hm
    rw [hdb2]
    show ((((approvalLines db rid).foldl (applyApprovalLine rid ab) db).items).find?
        (fun it => it.id == row.itemId)).map (fun it => it.status) = _
    rw [foldl_approval_items rid ab (approvalLines db rid) hnd db,
      find?_map_key db.items (rowUpdate (approvalLines db rid)) (fun it => it.id == row.itemId)
        (fun a => by simp [rowUpdate_id]), hf, Option.map_some', Option.map_some']
    rw [rowUpdate, hii, hfindrow]
  · intro i hq
    exact formatStatus_eq_deriveStatus i.quantity i.minQuantity hq

/-- Witness for the amended C4 at concrete inputs: creation stores `in-stock`,
a PUT leaves the stored status column as it was, an approval stores the
derived status, and the read projection derives the served status. -/
theorem stored_status_amended_witness :
    ((postItem emptyDB zeroQtyBody).2).status = ("in-stock") ∧
    (exDBafterPut.items[0]?).map (fun i => i.status) = (exDB.items[0]?).map (fun i => i.status) ∧
    ((exDBafterApprove.items.find? (fun it => it.id ==
        (({ itemId := 0, requested_qty := 5, current_qty := 10, minQuantity := 2 } : JoinRow)).itemId)).map
      (fun it => it.status))
      = some (deriveStatus (max 0 ((10 : Int) - 5)) 2) ∧
    (formatItem itemA).status = deriveStatus itemA.quantity itemA.minQuantity :=
  ⟨stored_status_amended.1 emptyDB zeroQtyBody,
   stored_status_amended.2.1 exDB 0 qtyThreeBody exDBafterPut (by rfl) 0,
   stored_status_amended.2.2.1 exDB ("r1") (some ("boss")) 7 reqR1 exDBafterApprove
     (by decide) (by decide) (by decide) (by rfl)
     ({ itemId := 0, requested_qty := 5, current_qty := 10, minQuantity := 2 }) (by decide),
   stored_status_amended.2.2.2 itemA (by decide)⟩

theorem itemHistory_append (h1 h2 : List HistoryEntry) (n : Nat) :
    itemHistory (h1 ++ h2) n = itemHistory h1 n ++ itemHistory h2 n :=
  List.filter_append ..

theorem itemHistory_single_match (e : HistoryEntry) (n : Nat) (he : e.item_id = n) :
    itemHistory [e] n = [e] := by
  simp [itemHistory, he]

theorem itemHistory_single_miss (e : HistoryEntry) (n : Nat) (he : ¬ e.item_id = n) :
    itemHistory [e] n = [] := by
  simp [itemHistory, he]

theorem lastQty_append_match (h : List HistoryEntry) (e : HistoryEntry) (n : Nat)
    (he : e.item_id = n) :
    lastQty (h ++ [e]) n = some e.quantity_after := by
  unfold lastQty
  rw [itemHistory_append, itemHistory_single_match e n he, List.getLast?_append]
  rfl

theorem lastQty_append_miss (h : List HistoryEntry) (e : HistoryEntry) (n : Nat)
    (he : ¬ e.item_id = n) :
    lastQty (h ++ [e]) n = lastQty h n := by
  unfold lastQty
  rw [itemHistory_append, itemHistory_single_miss e n he, List.append_nil]

theorem chainOK_append_entry (h : List HistoryEntry) (e : HistoryEntry)
    (hch : chainOK h)
    (hlink : ∀ x : HistoryEntry, (itemHistory h e.item_id).getLast? = some x →
      e.quantity_before = x.quantity_after) :
    chainOK (h ++ [e]) := by
  intro n
  rw [itemHistory_append]
  by_cases hn : e.item_id = n
  · rw [itemHistory_single_match e n hn]
    rw [List.chain'_append]
    refine ⟨hch n, List.chain'_singleton e, ?_⟩
    intro x hx y hy
    have hy' : e = y := by simpa using hy
    have hx' : (itemHistory h n).getLast? = some x := hx
    rw [← hy']
    show e.quantity_before = x.quantity_after
    apply hlink
    rw [hn]
    exact hx'
  · rw [itemHistory_single_miss e n hn, List.append_nil]
    exact hch n

theorem itemHistory_map_rowEntry (rid : String) (ab : Option String)
    (rows : List JoinRow) (n : Nat) :
    itemHistory (rows.map (rowEntry rid ab)) n
      = (rows.filter (fun row => row.itemId == n)).map (rowEntry rid ab) := by
  unfold itemHistory
  rw [List.filter_map]
  rfl

theorem filter_key_of_nodup (rows : List JoinRow)
    (hnd : (rows.map (fun row => row.itemId)).Nodup) (n : Nat) :
    (rows.filter (fun row => row.itemId == n) = [] ∧
      rows.find? (fun row => row.itemId == n) = none) ∨
    (∃ row, rows.find? (fun row => row.itemId == n) = some row ∧
      rows.filter (fun row => row.itemId == n) = [row]) := by
  induction rows with
  | nil =>
    left
    exact ⟨rfl, rfl⟩
  | cons r rest ih =>
    rw [List.map_cons] at hnd
    have hnotin := (List.nodup_cons.mp hnd).1
    have hnd' := (List.nodup_cons.mp hnd).2
    by_cases hr : (r.itemId == n) = true
    · right
      refine ⟨r, List.find?_cons_of_pos (p := fun row => row.itemId == n) rest hr, ?_⟩
      rw [List.filter_cons_of_pos (p := fun row => row.itemId == n) (a := r) hr]
      have hrest : rest.filter (fun row => row.itemId == n) = [] := by
        refine List.filter_eq_nil_iff.mpr ?_
        intro row hrow hEq
        have h1 : row.itemId = n := by simpa using hEq
        have h2 : r.itemId = n := by simpa using hr
        refine hnotin ?_
        rw [h2, ← h1]
        exact List.mem_map_of_mem _ hrow
      rw [hrest]
    · rw [List.filter_cons_of_neg (p := fun row => row.itemId == n) (a := r) hr,
        List.find?_cons_of_neg (p := fun row => row.itemId == n) rest hr]
      exact ih hnd'

theorem Inv_frame (db db2 : DB) (hI : Inv db) (hitems : db2.items = db.items)
    (hhist : db2.history = db.history) (hnext : db2.nextId = db.nextId) : Inv db2 := by
  rcases hI with ⟨h1, h2, h3, h4, h5, h6⟩
  refine ⟨?_, ?_, ?_, ?_, ?_, ?_⟩
  · rw [hitems]; exact h1
  · rw [hitems, hnext]; exact h2
  · rw [hhist, hnext]; exact h3
  · rw [hitems, hhist]; exact h4
  · rw [hhist]; exact h5
  · rw [hhist]; exact h6

theorem Inv_map_items (db : DB) (g : Item → Item)
    (hid : ∀ i : Item, (g i).id = i.id)
    (hqty : ∀ i ∈ db.items, (g i).quantity = i.quantity) (hI : Inv db) :
    Inv { db with items := db.items.map g } := by
  rcases hI with ⟨h1, h2, h3, h4, h5, h6⟩
  refine ⟨?_, ?_, h3, ?_, h5, h6⟩
  · show ((db.items.map g).map (fun i => i.id)).Nodup
    rw [List.map_map]
    have heq : db.items.map ((fun i : Item => i.id) ∘ g) = db.items.map (fun i => i.id) :=
      List.map_congr_left (fun i _ => hid i)
    rw [heq]
    exact h1
  · intro i2 hi2
    rcases List.mem_map.mp hi2 with ⟨i, hi, heq⟩
    show i2.id < db.nextId
    rw [← heq, hid i]
    exact h2 i hi
  · intro i2 hi2 q hq
    rcases List.mem_map.mp hi2 with ⟨i, hi, heq⟩
    rw [← heq, hid i] at hq
    rw [← heq, hqty i hi]
    exact h4 i hi q hq

theorem Inv_post (db : DB) (b : PostItemBody) (hI : Inv db) : Inv (postItem db b).1 := by
  rcases hI with ⟨h1, h2, h3, h4, h5, h6⟩
  refine ⟨?_, ?_, ?_, ?_, h5, h6⟩
  · show ((db.items ++ [_]).map (fun i : Item => i.id)).Nodup
    rw [List.map_append, List.nodup_append]
    refine ⟨h1, List.nodup_singleton _, ?_⟩
    intro x hx hy
    rcases List.mem_map.mp hx with ⟨i, hi, heq⟩
    have hx' : x = db.nextId := by simpa using hy
    have : i.id < db.nextId := h2 i hi
    omega
  · intro i hi
    show i.id < db.nextId + 1
    rcases List.mem_append.mp hi with h | h
    · exact Nat.lt_succ_of_lt (h2 i h)
    · have hinew : i = ({ id := db.nextId, name := b.name, description := b.description,
                          category := b.category, quantity := b.quantity.getD 0,
                          minQuantity := b.minQuantity.getD 0, unit := b.unit.getD ("pcs"),
                          price := b.price.getD 0, status := ("in-stock"), isActive := 1 } : Item) := by
        simpa using h
      rw [hinew]
      exact Nat.lt_succ_self _
  · intro e he
    exact Nat.lt_succ_of_lt (h3 e he)
  · intro i hi q hq
    rcases List.mem_append.mp hi with h | h
    · exact h4 i h q hq
    · have hinew : i = ({ id := db.nextId, name := b.name, description := b.description,
                          category := b.category, quantity := b.quantity.getD 0,
                          minQuantity := b.minQuantity.getD 0, unit := b.unit.getD ("pcs"),
                          price := b.price.getD 0, status := ("in-stock"), isActive := 1 } : Item) := by
        simpa using h
      have hempty : itemHistory db.history db.nextId = [] := by
        refine List.filter_eq_nil_iff.mpr ?_
        intro e he hbe
        have hlt := h3 e he
        have : e.item_id = db.nextId := by simpa using hbe
        omega
      rw [hinew] at hq
      have hq2 : lastQty db.history db.nextId = some q := hq
      unfold lastQty at hq2
      rw [hempty] at hq2
      exact Option.noConfusion hq2

theorem Inv_del (db : DB) (id : Nat) (hI : Inv db) : Inv (deleteItem db id).1 := by
  refine Inv_map_items db _ ?_ ?_ hI
  · intro i
    by_cases h : (i.id == id) = true <;> simp [h]
  · intro i _
    by_cases h : (i.id == id) = true <;> simp [h]

theorem Inv_postRequest_ok (db : DB) (rid : String) (b : PostRequestBody) (now : Nat)
    (db2 : DB) (hp : postRequest db rid b now = Except.ok db2) (hI : Inv db) : Inv db2 := by
  unfold postRequest at hp
  split at hp
  · exact Except.noConfusion hp
  · have heq := Except.ok.inj hp
    exact Inv_frame db db2 hI (by rw [← heq]) (by rw [← heq]) (by rw [← heq])

theorem deleteRequest_frame (db : DB) (rid : String) :
    (deleteRequest db rid).1.items = db.items ∧ (deleteRequest db rid).1.history = db.history ∧
    (deleteRequest db rid).1.nextId = db.nextId := by
  unfold deleteRequest
  split
  · exact ⟨rfl, rfl, rfl⟩
  · exact ⟨rfl, rfl, rfl⟩

theorem Inv_map_items_append_entry (db : DB) (g : Item → Item) (e : HistoryEntry)
    (hid : ∀ i : Item, (g i).id = i.id)
    (heid : ∃ i0 ∈ db.items, i0.id = e.item_id)
    (hlaw : entryLaw e)
    (hqty : ∀ i ∈ db.items,
      (g i).quantity = (if i.id = e.item_id then e.quantity_after else i.quantity))
    (hbefore : ∀ i ∈ db.items, i.id = e.item_id → i.quantity = e.quantity_before)
    (hI : Inv db) :
    Inv { db with items := db.items.map g, history := db.history ++ [e] } := by
  rcases hI with ⟨h1, h2, h3, h4, h5, h6⟩
  rcases heid with ⟨i0, hi0, hi0id⟩
  refine ⟨?_, ?_, ?_, ?_, ?_, ?_⟩
  · show ((db.items.map g).map (fun i => i.id)).Nodup
    rw [List.map_map]
    have heq : db.items.map ((fun i : Item => i.id) ∘ g) = db.items.map (fun i => i.id) :=
      List.map_congr_left (fun i _ => hid i)
    rw [heq]
    exact h1
  · intro i2 hi2
    rcases List.mem_map.mp hi2 with ⟨i, hi, heq⟩
    show i2.id < db.nextId
    rw [← heq, hid i]
    exact h2 i hi
  · intro e2 he2
    rcases List.mem_append.mp he2 with hv | hv
    · exact h3 e2 hv
    · have he2e : e2 = e := by simpa using hv
      show e2.item_id < db.nextId
      rw [he2e, ← hi0id]
      exact h2 i0 hi0
  · intro i2 hi2 q hq
    rcases List.mem_map.mp hi2 with ⟨i, hi, heq⟩
    rw [← heq, hid i] at hq
    rw [← heq, hqty i hi]
    by_cases hii : i.id = e.item_id
    · rw [if_pos hii]
      rw [hii, lastQty_append_match db.history e e.item_id rfl] at hq
      exact Option.some.inj hq
    · rw [if_neg hii]
      rw [lastQty_append_miss db.history e i.id (fun hce => hii hce.symm)] at hq
      exact h4 i hi q hq
  · intro e2 he2
    rcases List.mem_append.mp he2 with hv | hv
    · exact h5 e2 hv
    · have he2e : e2 = e := by simpa using hv
      rw [he2e]
      exact hlaw
  · refine chainOK_append_entry db.history e h6 ?_
    intro x hx
    have hlq : lastQty db.history e.item_id = some x.quantity_after := by
      unfold lastQty
      rw [hx]
      rfl
    have hiq := h4 i0 hi0 x.quantity_after (by rw [hi0id]; exact hlq)
    rw [← hbefore i0 hi0 hi0id]
    exact hiq

theorem Inv_putItem_ok (db : DB) (id : Nat) (b : PutItemBody) (db2 : DB)
    (h : putItem db id b = Except.ok db2) (hI : Inv db) : Inv db2 := by
  have h1 := hI.1
  unfold putItem at h
  split at h
  · exact Except.noConfusion h
  next old hfind =>
    have hold_mem : old ∈ db.items := List.mem_of_find?_eq_some hfind
    have hold_id : old.id = id := by simpa using List.find?_some hfind
    split at h
    · rw [← Except.ok.inj h]
      exact hI
    · split at h
      next q hq =>
        split at h
        next hqe =>
          have hqe' : q = old.quantity := by simpa using hqe
          rw [← Except.ok.inj h]
          refine Inv_map_items db _ (fun i => ?_) (fun i hi => ?_) hI
          · by_cases hid2 : (i.id == id) = true <;> simp [hid2, applyItemUpdates]
          · by_cases hid2 : (i.id == id) = true
            · rw [if_pos hid2]
              have hieq : i = old :=
                List.inj_on_of_nodup_map h1 hi hold_mem
                  (by rw [(by simpa using hid2 : i.id = id), hold_id])
              show (applyItemUpdates b i).quantity = i.quantity
              unfold applyItemUpdates
              show b.quantity.getD i.quantity = i.quantity
              rw [hq, hieq, hqe']
              rfl
            · rw [if_neg hid2]
        next hqe =>
          have hqe' : ¬ q = old.quantity := by simpa using hqe
          rw [← Except.ok.inj h]
          refine Inv_map_items_append_entry db _ (putItemEntry id b old.quantity q)
            (fun i => ?_) ⟨old, hold_mem, hold_id⟩ ?_ (fun i hi => ?_) (fun i hi hii => ?_) hI
          · by_cases hid2 : (i.id == id) = true <;> simp [hid2, applyItemUpdates]
          · unfold entryLaw putItemEntry
            by_cases hlt : old.quantity < q
            · rw [if_pos hlt]
              rw [if_neg (by decide : ¬ (("restock") : String) = ("request"))]
              show q = old.quantity + (q - old.quantity)
              ring
            · rw [if_neg hlt]
              rw [if_neg (by decide : ¬ (("adjustment") : String) = ("request"))]
              show q = old.quantity + (q - old.quantity)
              ring
          · show (if (i.id == id) = true then applyItemUpdates b i else i).quantity
              = if i.id = id then q else i.quantity
            by_cases hid2 : (i.id == id) = true
            · rw [if_pos hid2, if_pos (by simpa using hid2 : i.id = id)]
              show b.quantity.getD i.quantity = q
              rw [hq]
              rfl
            · rw [if_neg hid2, if_neg (by simpa using hid2 : ¬ i.id = id)]
          · have hieq : i = old :=
              List.inj_on_of_nodup_map h1 hi hold_mem (by rw [hii]; exact hold_id.symm)
            show i.quantity = old.quantity
            rw [hieq]
      next hq =>
        rw [← Except.ok.inj h]
        refine Inv_map_items db _ (fun i => ?_) (fun i hi => ?_) hI
        · by_cases hid2 : (i.id == id) = true <;> simp [hid2, applyItemUpdates]
        · by_cases hid2 : (i.id == id) = true
          · rw [if_pos hid2]
            show b.quantity.getD i.quantity = i.quantity
            rw [hq]
            rfl
          · rw [if_neg hid2]

theorem Inv_approval_core (db : DB) (rid : String) (ab : Option String)
    (hnd : ((approvalLines db rid).map (fun row => row.itemId)).Nodup) (hI : Inv db) :
    Inv { db with items := db.items.map (rowUpdate (approvalLines db rid)),
                  history := db.history ++ (approvalLines db rid).map (rowEntry rid ab) } := by
  rcases hI with ⟨h1, h2, h3, h4, h5, h6⟩
  refine ⟨?_, ?_, ?_, ?_, ?_, ?_⟩
  · show ((db.items.map (rowUpdate (approvalLines db rid))).map (fun i => i.id)).Nodup
    rw [List.map_map]
    have heq : db.items.map ((fun i : Item => i.id) ∘ rowUpdate (approvalLines db rid))
        = db.items.map (fun i => i.id) :=
      List.map_congr_left (fun i _ => rowUpdate_id _ i)
    rw [heq]
    exact h1
  · intro i2 hi2
    rcases List.mem_map.mp hi2 with ⟨i, hi, heq⟩
    show i2.id < db.nextId
    rw [← heq, rowUpdate_id]
    exact h2 i hi
  · intro e he
    rcases List.mem_append.mp he with hv | hv
    · exact h3 e hv
    · rcases List.mem_map.mp hv with ⟨row, hrow, heq⟩
      rcases approvalLines_snapshot hrow with ⟨i, hf, _, _⟩
      have hii : i.id = row.itemId := by simpa using List.find?_some hf
      show e.item_id < db.nextId
      rw [← heq]
      show row.itemId < db.nextId
      rw [← hii]
      exact h2 i (List.mem_of_find?_eq_some hf)
  · intro i2 hi2 q hq
    rcases List.mem_map.mp hi2 with ⟨i, hi, heq⟩
    rw [← heq, rowUpdate_id] at hq
    rw [← heq]
    rcases filter_key_of_nodup (approvalLines db rid) hnd i.id with ⟨hfil, hfind⟩ | ⟨row, hfind, hfil⟩
    · rw [rowUpdate_no_row _ _ hfind]
      have hq2 : lastQty db.history i.id = some q := by
        unfold lastQty at hq ⊢
        rw [itemHistory_append, itemHistory_map_rowEntry, hfil] at hq
        simpa using hq
      exact h4 i hi q hq2
    · have hq2 : (rowEntry rid ab row).quantity_after = q := by
        unfold lastQty at hq
        rw [itemHistory_append, itemHistory_map_rowEntry, hfil] at hq
        rw [List.getLast?_append] at hq
        simpa using hq
      rw [rowUpdate, hfind]
      show max 0 (row.current_qty - row.requested_qty) = q
      exact hq2
  · intro e he
    rcases List.mem_append.mp he with hv | hv
    · exact h5 e hv
    · rcases List.mem_map.mp hv with ⟨row, hrow, heq⟩
      rw [← heq]
      unfold entryLaw rowEntry
      rw [if_pos rfl]
      show max 0 (row.current_qty - row.requested_qty)
        = max 0 (row.current_qty + -row.requested_qty)
      rw [← sub_eq_add_neg]
  · intro n
    show (itemHistory (db.history ++ (approvalLines db rid).map (rowEntry rid ab)) n).Chain' _
    rw [itemHistory_append, itemHistory_map_rowEntry]
    rcases filter_key_of_nodup (approvalLines db rid) hnd n with ⟨hfil, _⟩ | ⟨row, hfind, hfil⟩
    · rw [hfil]
      simpa using h6 n
    · rw [hfil]
      have hkey : row.itemId = n := by simpa using List.find?_some hfind
      rw [show ([row].map (rowEntry rid ab)) = [rowEntry rid ab row] from rfl,
        List.chain'_append]
      refine ⟨h6 n, List.chain'_singleton _, ?_⟩
      intro x hx y hy
      have hy' : rowEntry rid ab row = y := by simpa using hy
      rw [← hy']
      show (rowEntry rid ab row).quantity_before = x.quantity_after
      rcases approvalLines_snapshot (List.mem_of_find?_eq_some hfind) with ⟨i, hf, hcq, _⟩
      have hii : i.id = row.itemId := by simpa using List.find?_some hf
      have hlq : lastQty db.history i.id = some x.quantity_after := by
        unfold lastQty
        rw [hii, hkey, show (itemHistory db.history n).getLast? = some x from hx]
        rfl
      have hiq := h4 i (List.mem_of_find?_eq_some hf) x.quantity_after hlq
      show row.current_qty = x.quantity_after
      rw [hcq]
      exact hiq

theorem nodup_of_stepOKb (db : DB) (rid status : String) (ab : Option String) (now : Nat)
    (hok : stepOKb db (Op.patch rid status ab now) = true)
    (hst : (status == ("approved")) = true) :
    ((approvalLines db rid).map (fun row => row.itemId)).Nodup := by
  have hok2 : (!(status == ("approved"))
      || decide ((approvalLines db rid).map (fun row => row.itemId)).Nodup) = true := hok
  rw [hst] at hok2
  simpa using hok2

theorem Inv_patch_ok (db : DB) (rid status : String) (ab : Option String) (now : Nat)
    (db2 : DB) (h : patchRequestStatus db rid status ab now = Except.ok db2)
    (hok : stepOKb db (Op.patch rid status ab now) = true) (hI : Inv db) : Inv db2 := by
  cases hreq : db.requests.find? (fun r => r.id == rid) with
  | none =>
    unfold patchRequestStatus at h
    rw [hreq] at h
    exact Except.noConfusion h
  | some req =>
    cases hg : (status == ("approved")) && !(req.status == ("approved")) with
    | false =>
      have h2 := patchRequestStatus_ok_of_guard_false db rid status ab now req hreq hg
      have hdb2 : db2 = _ := Except.ok.inj (h.symm.trans h2)
      rw [hdb2]
      exact Inv_frame db _ hI rfl rfl rfl
    | true =>
      have hnd : ((approvalLines db rid).map (fun row => row.itemId)).Nodup :=
        nodup_of_stepOKb db rid status ab now hok (Bool.and_elim_left hg)
      have h2 := patchRequestStatus_ok_of_guard_true db rid status ab now req hreq hg
      have hdb2 : db2 = _ := Except.ok.inj (h.symm.trans h2)
      rw [hdb2]
      refine Inv_frame _ _ (Inv_approval_core db rid ab hnd hI) ?_ ?_ ?_
      · show ((approvalLines db rid).foldl (applyApprovalLine rid ab) db).items = _
        rw [foldl_approval_items rid ab _ hnd db]
      · show ((approvalLines db rid).foldl (applyApprovalLine rid ab) db).history = _
        exact foldl_approval_history rid ab _ db
      · show ((approvalLines db rid).foldl (applyApprovalLine rid ab) db).nextId = _
        exact foldl_approval_nextId rid ab _ db

theorem Inv_step (db : DB) (op : Op) (hok : stepOKb db op = true) (hI : Inv db) :
    Inv (step db op) := by
  cases op with
  | put id b =>
    show Inv (match putItem db id b with | .ok db2 => db2 | .error _ => db)
    cases hp : putItem db id b with
    | ok db2 => exact Inv_putItem_ok db id b db2 hp hI
    | error e => exact hI
  | post b => exact Inv_post db b hI
  | del id => exact Inv_del db id hI
  | postReq rid b now =>
    show Inv (match postRequest db rid b now with | .ok db2 => db2 | .error _ => db)
    cases hp : postRequest db rid b now with
    | ok db2 => exact Inv_postRequest_ok db rid b now db2 hp hI
    | error e => exact hI
  | delReq rid =>
    rcases deleteRequest_frame db rid with ⟨hit, hhi, hne⟩
    exact Inv_frame db _ hI hit hhi hne
  | patch rid status ab now =>
    show Inv (match patchRequestStatus db rid status ab now with | .ok db2 => db2 | .error _ => db)
    cases hp : patchRequestStatus db rid status ab now with
    | ok db2 => exact Inv_patch_ok db rid status ab now db2 hp hok hI
    | error e => exact hI

theorem Inv_run (ops : List Op) :
    ∀ db : DB, Inv db → traceOKb db ops = true → Inv (run db ops) := by
  induction ops with
  | nil =>
    intro db hI _
    exact hI
  | cons op rest ih =>
    intro db hI hok
    rw [traceOKb] at hok
    exact ih (step db op)
      (Inv_step db op (Bool.and_elim_left hok) hI) (Bool.and_elim_right hok)

theorem Inv_emptyDB : Inv emptyDB := by
  refine ⟨?_, ?_, ?_, ?_, ?_, ?_⟩
  · exact List.nodup_nil
  · intro i hi
    cases hi
  · intro e he
    cases he
  · intro i hi
    cases hi
  · intro e he
    cases he
  · intro n
    exact List.chain'_nil

/-- C6 counterexample: the clamped approval of 20 against a stock of 10
writes an entry with quantity_after 0 but quantity_before + quantity_change
= -10, and an approval of a request listing the same item twice writes
consecutive entries whose chain is broken (before 10 after an entry ending
at 7). -/
theorem ledger_equation_fails_on_clamped_approval :
    ((run emptyDB clampTrace).history.map
        (fun e => (e.quantity_before, e.quantity_change, e.quantity_after)))
      = [(10, -20, 0)] ∧
    ¬ ((0 : Int) = 10 + (-20)) ∧
    ((run emptyDB dupTrace).history.map (fun e => (e.quantity_before, e.quantity_after)))
      = [(10, 7), (10, 6)] ∧
    ¬ ((10 : Int) = 7) := by decide

/-- C6 amended: along every trace of API operations from a fresh store (with
every approval acting on a request whose line items reference pairwise
distinct items), each history entry satisfies quantity_after =
quantity_before + quantity_change except approval entries, which satisfy
the clamped law quantity_after = max 0 (quantity_before + quantity_change);
and per-item chain consistency holds: each entry's quantity_before equals
the previous entry's quantity_after. -/
theorem ledger_laws_hold_along_traces (ops : List Op)
    (hok : traceOKb emptyDB ops = true) :
    (∀ e ∈ (run emptyDB ops).history, entryLaw e) ∧ chainOK (run emptyDB ops).history := by
  have h := Inv_run ops emptyDB Inv_emptyDB hok
  exact ⟨h.2.2.2.2.1, h.2.2.2.2.2⟩

/-- Witness for the amended C6 on the concrete clamped trace. -/
theorem ledger_laws_hold_along_traces_witness :
    (∀ e ∈ (run emptyDB clampTrace).history, entryLaw e) ∧
    chainOK (run emptyDB clampTrace).history :=
  ledger_laws_hold_along_traces clampTrace (by decide)

end Gudang
